import Mathlib

/-!
Verification development for the odml2 metadata document model
(`odml2/model.py`, `odml2/builder.py`).

The Python code is shallowly embedded: the value grammar (`VALUE_EXPR`,
`Value.from_obj`, `Value.__str__`, `Value.__init__`) and the section /
store operations (`Section.get`, `Section.__getitem__`,
`Section.__setitem__`, `Section._copy`, `SB.build`, `Section.__eq__`)
become executable Lean functions over explicit store values.  Python
exceptions become `Except PyErr`; Python `float` is modelled as an exact
decimal number (see `Dec`); machine-level IEEE behaviour is outside the
model.  The back-end store itself (`odml2/api/mem.py` is not part of the
sources) is modelled from the specification's back-end contract.
-/

/-- Python exceptions raised by the embedded operations. -/
inductive PyErr where
  | valueError (msg : String)
  | keyError (msg : String)
  | fuel
  deriving DecidableEq, Repr

instance exceptDecEq {ε α : Type} [DecidableEq ε] [DecidableEq α] :
    DecidableEq (Except ε α)
  | .ok a, .ok b =>
    if h : a = b then isTrue (by rw [h]) else
      isFalse (fun c => h (by cases c; rfl))
  | .ok _, .error _ => isFalse (fun c => Except.noConfusion c)
  | .error _, .ok _ => isFalse (fun c => Except.noConfusion c)
  | .error e, .error f =>
    if h : e = f then isTrue (by rw [h]) else
      isFalse (fun c => h (by cases c; rfl))

/-- Python `float` values are modelled as exact decimal numbers
`m / 10 ^ e`.  Python's shortest-round-trip printing of such floats is
modelled by printing the canonical decimal form (`canonb`). -/
structure Dec where
  m : Int
  e : Nat
  deriving DecidableEq, Repr

/-- Strip trailing decimal zeros, mirroring how a decimal literal denotes
a unique Python float. -/
def normDec (m : Int) : Nat → Dec
  | 0 => ⟨m, 0⟩
  | e + 1 => if m % 10 = 0 then normDec (m / 10) e else ⟨m, e + 1⟩

/-- The decimal digit character for `n < 10`. -/
def digitChar : Nat → Char
  | 0 => '0' | 1 => '1' | 2 => '2' | 3 => '3' | 4 => '4'
  | 5 => '5' | 6 => '6' | 7 => '7' | 8 => '8' | 9 => '9'
  | _ => '*'

/-- Digit accumulator; the fuel (first argument) makes the recursion
structural so that values reduce inside the kernel. -/
def natDigitsGo : Nat → Nat → List Char → List Char
  | 0, _, acc => acc
  | f + 1, n, acc =>
    if n < 10 then digitChar n :: acc
    else natDigitsGo f (n / 10) (digitChar (n % 10) :: acc)

/-- Decimal digits of a natural number, most significant first
(the digits of Python `str(n)`). -/
def pyNatDigits (n : Nat) : List Char := natDigitsGo (n + 1) n []

/-- Numeric value of a digit string (Python `int(s)` on unsigned digit
strings). -/
def natOfDigits (l : List Char) : Nat :=
  l.foldl (fun a c => 10 * a + (c.toNat - 48)) 0

/-- Digits of Python `str(n)` for an integer, sign included. -/
def pyIntDigits (n : Int) : List Char :=
  if n < 0 then '-' :: pyNatDigits n.natAbs else pyNatDigits n.natAbs

/-- Unsigned digits of the decimal mantissa. -/
def decDigits (d : Dec) : List Char := pyNatDigits d.m.natAbs

/-- Integer part and fractional part digits of the printed form of a
decimal float (Python always prints at least one fractional digit). -/
def decIntFrac (d : Dec) : List Char × List Char :=
  let ds := decDigits d
  if d.e = 0 then (ds, ['0'])
  else if d.e < ds.length then (ds.take (ds.length - d.e), ds.drop (ds.length - d.e))
  else (['0'], List.replicate (d.e - ds.length) '0' ++ ds)

/-- Characters of Python `str(f)` for a (decimal-modelled) float. -/
def decChars (d : Dec) : List Char :=
  (if d.m < 0 then ['-'] else []) ++ (decIntFrac d).1 ++ '.' :: (decIntFrac d).2

def decStr (d : Dec) : String := ⟨decChars d⟩

/-- The payload types admitted by `ALLOWED_VALUE_TYPES`
(`bool, numbers.Number, dt.date, dt.time, dt.datetime, str`).
Times and datetimes are modelled without microseconds. -/
inductive Payload where
  | int (n : Int)
  | float (d : Dec)
  | bool (b : Bool)
  | str (s : String)
  | date (y mo dy : Nat)
  | time (h mi s : Nat)
  | datetime (y mo dy h mi s : Nat)
  deriving DecidableEq, Repr

/-- Python `isinstance(value, numbers.Number)`.  Note that Python `bool`
is a subtype of `int`, hence a `numbers.Number`. -/
def Payload.isNumber : Payload → Bool
  | .int _ => true
  | .float _ => true
  | .bool _ => true
  | _ => false

/-- Numeric in the sense of the specification's data model, which lists
`Bool` as a payload type distinct from `Number`. -/
def Payload.isSpecNumeric : Payload → Bool
  | .int _ => true
  | .float _ => true
  | _ => false

/-- An odML `Value`: payload plus optional unit and uncertainty
(`Value.__slots__` state after a successful `__init__`). -/
structure Value where
  value : Payload
  unit : Option String
  uncertainty : Option Dec
  deriving DecidableEq, Repr

/-- The checks of `Value.__init__`.  The payload being one of
`ALLOWED_VALUE_TYPES` and the unit being a string are enforced by the
model's types; the remaining runtime check is that unit or uncertainty
require a numeric payload.  The uncertainty argument is modelled as a
decimal number (`float(uncertainty)` keeps its value). -/
def Value.init (value : Payload) (unit : Option String) (uncertainty : Option Dec) :
    Except PyErr Value :=
  if (unit.isSome || uncertainty.isSome) && !value.isNumber then
    .error (.valueError "Uncertainty and unit must be None if value is not a number")
  else
    .ok ⟨value, unit, uncertainty⟩

/-- The `copy` method of `Value`: each argument defaults to the current
field when absent, and the result is rebuilt through `__init__`. -/
def Value.copy (v : Value) (value : Option Payload) (unit : Option String)
    (uncertainty : Option Dec) : Except PyErr Value :=
  Value.init (value.getD v.value)
    (match unit with | some u => some u | none => v.unit)
    (match uncertainty with | some u => some u | none => v.uncertainty)

/-- Zero-padded digits used by `date.isoformat` and friends. -/
def padDigits (w : Nat) (n : Nat) : List Char :=
  let ds := pyNatDigits n
  List.replicate (w - ds.length) '0' ++ ds

def isoDateChars (y mo dy : Nat) : List Char :=
  padDigits 4 y ++ '-' :: (padDigits 2 mo ++ '-' :: padDigits 2 dy)

def isoTimeChars (h mi s : Nat) : List Char :=
  padDigits 2 h ++ ':' :: (padDigits 2 mi ++ ':' :: padDigits 2 s)

def pyBoolChars : Bool → List Char
  | true => ['T', 'r', 'u', 'e']
  | false => ['F', 'a', 'l', 's', 'e']

/-- Characters of `Value.__value_str`: isoformat for temporal payloads,
the raw string for strings, `str(...)` otherwise. -/
def Payload.strChars : Payload → List Char
  | .int n => pyIntDigits n
  | .float d => decChars d
  | .bool b => pyBoolChars b
  | .str s => s.toList
  | .date y mo dy => isoDateChars y mo dy
  | .time h mi s => isoTimeChars h mi s
  | .datetime y mo dy h mi s => isoDateChars y mo dy ++ 'T' :: isoTimeChars h mi s

/-- The PLUS_MINUS sign (U+00B1), as used by `Value.__str__` on Python 3. -/
def pmChar : Char := Char.ofNat 177

/-- Characters of `Value.__str__`: value, then `±uncertainty`, then unit. -/
def Value.strChars (v : Value) : List Char :=
  v.value.strChars
    ++ (match v.uncertainty with | some u => pmChar :: decChars u | none => [])
    ++ (match v.unit with | some u => u.toList | none => [])

def Value.str (v : Value) : String := ⟨v.strChars⟩

/-! ### The `VALUE_EXPR` regular expression

`^([-+]?(([0-9]+)|([0-9]*\.[0-9]+([eE][-+]?[0-9]+)?)))\s?`
`((\+-|\xb1)(([0-9]+)|([0-9]*\.[0-9]+([eE][-+]?[0-9]+)?)))?\s?`
`([A-Za-zΩμ]{1,4})?$`

It is embedded as a backtracking matcher: every component produces its
candidate `(capture, rest)` pairs in the exact priority order of Python's
`re` engine (greedy quantifiers longest first, alternatives left first),
sequencing concatenates candidate lists, and the overall match is the
first candidate whose rest is empty or a single trailing newline (the
`$` anchor without `MULTILINE`). -/

/-- Candidate parses: capture plus remaining input, in priority order. -/
abbrev Cand (α : Type) := List (α × List Char)

/-- The character class `[0-9]`. -/
def isDigitC (c : Char) : Bool := 48 ≤ c.toNat && c.toNat ≤ 57

/-- Python 3 `\s` for text patterns (`Py_UNICODE_ISSPACE`): ASCII
whitespace U+0009–U+000D and U+0020, the information separators
U+001C–U+001F, and the Unicode spaces U+0085, U+00A0, U+1680,
U+2000–U+200A, U+2028, U+2029, U+202F, U+205F and U+3000. -/
def isWsChar (c : Char) : Bool :=
  (9 ≤ c.toNat && c.toNat ≤ 13) || (28 ≤ c.toNat && c.toNat ≤ 32) ||
    c.toNat == 133 || c.toNat == 160 || c.toNat == 5760 ||
    (8192 ≤ c.toNat && c.toNat ≤ 8202) || c.toNat == 8232 || c.toNat == 8233 ||
    c.toNat == 8239 || c.toNat == 8287 || c.toNat == 12288

/-- The character class `[A-Za-zΩμ]` (U+03A9, U+03BC). -/
def isUnitChar (c : Char) : Bool :=
  (65 ≤ c.toNat && c.toNat ≤ 90) || (97 ≤ c.toNat && c.toNat ≤ 122) ||
    c.toNat == 937 || c.toNat == 956

/-- Candidates of `[0-9]+`, longest first. -/
def digitsPlusC : List Char → Cand (List Char)
  | [] => []
  | c :: r =>
    if isDigitC c then ((digitsPlusC r).map fun p => (c :: p.1, p.2)) ++ [([c], r)]
    else []

/-- Candidates of `[0-9]*`, longest first. -/
def digitsStarC (l : List Char) : Cand (List Char) :=
  digitsPlusC l ++ [([], l)]

/-- Candidates of `[-+]?`. -/
def signC : List Char → Cand (Option Char)
  | [] => [(none, [])]
  | c :: r =>
    if c = '+' || c = '-' then [(some c, r), (none, c :: r)] else [(none, c :: r)]

/-- Candidate rests of `\s?`. -/
def wsOptC : List Char → List (List Char)
  | [] => [[]]
  | c :: r => if isWsChar c then [r, c :: r] else [c :: r]

/-- Candidates of `[-+]?[0-9]+` after `[eE]` inside the exponent. -/
def expTailC (l : List Char) : Cand (Option Char × List Char) :=
  (signC l).flatMap fun sp => (digitsPlusC sp.2).map fun dp => ((sp.1, dp.1), dp.2)

/-- Candidates of `([eE][-+]?[0-9]+)?`. -/
def expOptC : List Char → Cand (Option (Option Char × List Char))
  | [] => [(none, [])]
  | c :: r =>
    if c = 'e' || c = 'E' then
      ((expTailC r).map fun p => (some p.1, p.2)) ++ [(none, c :: r)]
    else [(none, c :: r)]

/-- The shape of one matched number: the integer alternative `[0-9]+`
(whose group is `g[2]`/`g[8]`) or the float alternative
`[0-9]*\.[0-9]+([eE][-+]?[0-9]+)?` (`g[3]`/`g[9]`). -/
inductive NumForm where
  | int (ds : List Char)
  | float (ip fp : List Char) (ex : Option (Option Char × List Char))
  deriving DecidableEq, Repr

/-- Candidates of the float alternative after the integer-part digits:
the mandatory dot, the fraction digits, the optional exponent. -/
def floatCont (ip : List Char) : List Char → Cand NumForm
  | c :: r2 =>
    if c = '.' then
      (digitsPlusC r2).flatMap fun fp =>
        (expOptC fp.2).map fun ex => (NumForm.float ip fp.1 ex.1, ex.2)
    else []
  | [] => []

/-- Candidates of the float alternative. -/
def floatC (l : List Char) : Cand NumForm :=
  (digitsStarC l).flatMap fun ip => floatCont ip.1 ip.2

/-- Candidates of `(([0-9]+)|([0-9]*\.[0-9]+([eE][-+]?[0-9]+)?))`,
integer alternative first. -/
def numAltC (l : List Char) : Cand NumForm :=
  ((digitsPlusC l).map fun p => (NumForm.int p.1, p.2)) ++ floatC l

/-- The signed number group `g[0]`. -/
structure NumCap where
  sign : Option Char
  form : NumForm
  deriving DecidableEq, Repr

/-- Candidates of the leading signed number. -/
def numC (l : List Char) : Cand NumCap :=
  (signC l).flatMap fun sp => (numAltC sp.2).map fun np => (⟨sp.1, np.1⟩, np.2)

/-- Candidates of the optional uncertainty group
`((\+-|\xb1)(([0-9]+)|([0-9]*\.[0-9]+([eE][-+]?[0-9]+)?)))?`.
The uncertainty number carries no sign. -/
def pmC : List Char → Cand (Option NumForm)
  | [] => [(none, [])]
  | c :: r =>
    if c = '+' then
      match r with
      | c2 :: r2 =>
        if c2 = '-' then ((numAltC r2).map fun p => (some p.1, p.2)) ++ [(none, c :: r)]
        else [(none, c :: r)]
      | [] => [(none, c :: r)]
    else if c = pmChar then ((numAltC r).map fun p => (some p.1, p.2)) ++ [(none, c :: r)]
    else [(none, c :: r)]

/-- Candidates of `([A-Za-zΩμ]{1,4})?`, longest first, then absent. -/
def unitRun : List Char → Nat
  | c :: r => if isUnitChar c then unitRun r + 1 else 0
  | [] => 0

def unitC (l : List Char) : Cand (Option (List Char)) :=
  let r := min (unitRun l) 4
  ((List.range r).map fun i => (some (l.take (r - i)), l.drop (r - i))) ++ [(none, l)]

/-- The captures `from_obj` reads: `g[0]` (as sign and form, which also
records whether `g[3]` participated), `g[7]` and `g[11]`. -/
structure Caps where
  num : NumCap
  unc : Option NumForm
  unit : Option (List Char)
  deriving DecidableEq, Repr

/-- The `\s? unit?` tail behind an uncertainty capture. -/
def unitTailC (q : Option NumForm) (r : List Char) :
    Cand (Option NumForm × Option (List Char)) :=
  (wsOptC r).flatMap fun r4 =>
  (unitC r4).map fun tp => ((q, tp.1), tp.2)

/-- Candidates of the pattern tail after the leading number:
`\s? (pm unc)? \s? unit?`, producing the uncertainty and unit captures. -/
def tailCands (r1 : List Char) : Cand (Option NumForm × Option (List Char)) :=
  (wsOptC r1).flatMap fun r2 =>
  (pmC r2).flatMap fun up =>
  unitTailC up.1 up.2

/-- All candidates of the anchored pattern body, in priority order. -/
def matchCands (l : List Char) : Cand Caps :=
  (numC l).flatMap fun np =>
    (tailCands np.2).map fun tc => (⟨np.1, tc.1.1, tc.1.2⟩, tc.2)

/-- The `$` anchor of Python `re` without `MULTILINE`: it matches at
the end of the input and also just before a newline that ends the
input. -/
def dollarEnd : List Char → Bool
  | [] => true
  | [c] => c == '\n'
  | _ => false

/-- `VALUE_EXPR.match(s)`: the first candidate whose rest satisfies the
`$` anchor. -/
def VALUE_EXPR_match (l : List Char) : Option Caps :=
  ((matchCands l).find? fun p => dollarEnd p.2).map fun p => p.1

/-- Python `int(s)` on the signed digit capture. -/
def intOfCap (sg : Option Char) (ds : List Char) : Int :=
  if sg = some '-' then -(natOfDigits ds : Int) else (natOfDigits ds : Int)

/-- Python `float(s)` on a matched float literal, as an exact decimal. -/
def decOfFloatForm (sg : Option Char) (ip fp : List Char)
    (ex : Option (Option Char × List Char)) : Dec :=
  let mag : Int := (natOfDigits (ip ++ fp) : Int)
  let mag : Int := if sg = some '-' then -mag else mag
  let ex10 : Int :=
    match ex with
    | some (esg, eds) =>
      if esg = some '-' then -(natOfDigits eds : Int) else (natOfDigits eds : Int)
    | none => 0
  let sc : Int := ex10 - (fp.length : Int)
  if 0 ≤ sc then ⟨mag * (10 : Int) ^ sc.toNat, 0⟩
  else normDec mag (-sc).toNat

/-- Python `float(s)` on the (unsigned) uncertainty capture. -/
def decOfNumForm : NumForm → Dec
  | .int ds => ⟨(natOfDigits ds : Int), 0⟩
  | .float ip fp ex => decOfFloatForm none ip fp ex

/-- Python objects as they reach `Value.from_obj` and the property
setters: an allowed payload, an existing `Value`, or anything else. -/
inductive PyObj where
  | pay (p : Payload)
  | val (v : Value)
  | foreign (tag : String)
  deriving DecidableEq, Repr

/-- `Value.from_obj`: strings go through `VALUE_EXPR`; other allowed
types wrap as-is; `Value`s pass through; anything else raises. -/
def Value.from_obj : PyObj → Except PyErr Value
  | .pay (.str s) =>
    match VALUE_EXPR_match s.toList with
    | none => Value.init (.str s) none none
    | some caps =>
      let num : Payload :=
        match caps.num.form with
        | .int ds => .int (intOfCap caps.num.sign ds)
        | .float ip fp ex => .float (decOfFloatForm caps.num.sign ip fp ex)
      Value.init num (caps.unit.map fun u => (⟨u⟩ : String)) (caps.unc.map decOfNumForm)
  | .pay p => Value.init p none none
  | .val v => .ok v
  | .foreign _ => .error (.valueError "Can not convert the object to a value")

/-! ### The back-end store

`odml2/api/mem.py` (the memory back-end the façade delegates to) is not
among the sources; the store and its primitive operations below are
modelled from the specification's back-end contract (spec §4.1).
Property maps are ordered (insertion order), addressed by name. -/

/-- A child-section reference inside a section property. -/
structure SecRef where
  uuid : String
  is_link : Bool
  deriving DecidableEq, Repr

/-- One section record: type, label, reference, and the two exclusive
property maps. -/
structure SecRecord where
  stype : String
  label : Option String
  reference : Option String
  value_props : List (String × Value)
  section_props : List (String × List SecRef)
  deriving DecidableEq, Repr

/-- A back-end store: section records in insertion order plus the root. -/
structure Store where
  sections : List (String × SecRecord)
  root : Option String
  deriving DecidableEq, Repr

/-- Ordered-dictionary lookup over an association list with unique keys. -/
def alookup {α : Type} : List (String × α) → String → Option α
  | [], _ => none
  | (k2, v) :: r, k => if k2 = k then some v else alookup r k

/-- Ordered-dictionary update: existing keys keep their position, new
keys are appended. -/
def aset {α : Type} : List (String × α) → String → α → List (String × α)
  | [], k, v => [(k, v)]
  | (k2, v2) :: r, k, v => if k2 = k then (k, v) :: r else (k2, v2) :: aset r k v

/-- Ordered-dictionary deletion of a key (keys are unique in every
reachable store, so removing every binding models `del d[k]`). -/
def adel {α : Type} : List (String × α) → String → List (String × α)
  | [], _ => []
  | (k2, v2) :: r, k => if k2 = k then adel r k else (k2, v2) :: adel r k

def Store.lookupSec (st : Store) (u : String) : Option SecRecord :=
  alookup st.sections u

def Store.hasSec (st : Store) (u : String) : Bool :=
  (alookup st.sections u).isSome

/-- Modelled from the spec: `root_create(type, id, label?, reference?)`
"fails if a root already exists or `id` is already used", otherwise
creates the record and makes it the root. -/
def Store.create_root (st : Store) (t u : String) (lbl ref : Option String) :
    Except PyErr Store :=
  if st.root.isSome then .error (.valueError "A root section already exists")
  else if st.hasSec u then .error (.valueError "The section id is already used")
  else .ok ⟨aset st.sections u ⟨t, lbl, ref, [], []⟩, some u⟩

/-- Modelled from the spec: `property_add_section` (the façade's
`back_end.sections.add`) "creates the child record, appends it to the
named list (creating the list if absent); fails if `child_id` already
exists"; the parent must exist. -/
def Store.addSec (st : Store) (t u : String) (lbl ref : Option String)
    (parent prop : String) : Except PyErr Store :=
  if st.hasSec u then .error (.valueError "The section id is already used")
  else
    match alookup st.sections parent with
    | none => .error (.keyError "Parent section not found")
    | some pr =>
      let refs := (alookup pr.section_props prop).getD []
      let pr2 := { pr with section_props := aset pr.section_props prop (refs ++ [⟨u, false⟩]) }
      .ok { st with sections := aset (aset st.sections parent pr2) u ⟨t, lbl, ref, [], []⟩ }

/-- Modelled from the spec: `property_set_value` "overwrites any prior
value or section-list under that name". -/
def Store.setValueProp (st : Store) (u p : String) (v : Value) : Except PyErr Store :=
  match alookup st.sections u with
  | none => .error (.keyError "Section not found")
  | some r0 =>
    let r2 := { r0 with value_props := aset r0.value_props p v,
                        section_props := adel r0.section_props p }
    .ok { st with sections := aset st.sections u r2 }

/-! ### The Section façade (`odml2/model.py`) -/

/-- A `Section` view: `(uuid, back_end, is_link)`.  The view carries the
store it reads from, so cross-store copies have their source at hand. -/
structure SectionView where
  uuid : String
  back_end : Store
  is_link : Bool
  deriving DecidableEq, Repr

/-- The dynamically-typed results of `Section.get`/`__getitem__`: a
`Value` object, a bare payload, one `Section`, a list of `Section`s, or
Python `None`. -/
inductive PyAccess where
  | val (v : Value)
  | payload (p : Payload)
  | secOne (s : SectionView)
  | secList (l : List SectionView)
  | none
  deriving DecidableEq, Repr

/-- `Section.get`: the `Value` object for a value property, the full
list of child `Section` views for a section property, `None` otherwise;
`KeyError` when the section id itself is absent. -/
def Section_get (st : Store) (u key : String) : Except PyErr PyAccess :=
  match alookup st.sections u with
  | Option.none => .error (.keyError "Section not found")
  | some r0 =>
    match alookup r0.value_props key with
    | some v => .ok (.val v)
    | Option.none =>
      match alookup r0.section_props key with
      | some refs => .ok (.secList (refs.map fun rf => ⟨rf.uuid, st, rf.is_link⟩))
      | Option.none => .ok PyAccess.none

/-- `Section.__getitem__`: raises `KeyError` on an absent name, unwraps
a singleton section list, and unwraps a `Value` to its payload. -/
def Section_getitem (st : Store) (u key : String) : Except PyErr PyAccess :=
  match Section_get st u key with
  | .error e => .error e
  | .ok PyAccess.none => .error (.keyError "Key not in section")
  | .ok (.secList [s]) => .ok (.secOne s)
  | .ok (.val v) => .ok (.payload v.value)
  | .ok other => .ok other

/-- The behaviour the specification ascribes to `get` (for comparison
with `Section_get`): a Value's payload for a value property, a single
`Section` for a section-list of length 1, the list when longer, `None`
when absent. -/
def Section_get_claimed (st : Store) (u key : String) : Except PyErr PyAccess :=
  match alookup st.sections u with
  | Option.none => .error (.keyError "Section not found")
  | some r0 =>
    match alookup r0.value_props key with
    | some v => .ok (.payload v.value)
    | Option.none =>
      match alookup r0.section_props key with
      | some refs =>
        match refs.map (fun rf => (⟨rf.uuid, st, rf.is_link⟩ : SectionView)) with
        | [s] => .ok (.secOne s)
        | l => .ok (.secList l)
      | Option.none => .ok PyAccess.none

/-- `Section.__delitem__`: removes the named property from whichever map
holds it, `KeyError` otherwise.  (The cascading destruction of strongly
owned child records happens inside the missing back-end; no claim below
depends on it, so deletion is modelled as removing the property entry.) -/
def Section_delitem (st : Store) (u key : String) : Except PyErr Store :=
  match alookup st.sections u with
  | Option.none => .error (.keyError "Section not found")
  | some r0 =>
    if (alookup r0.value_props key).isSome then
      let r2 := { r0 with value_props := adel r0.value_props key }
      .ok { st with sections := aset st.sections u r2 }
    else if (alookup r0.section_props key).isSome then
      let r2 := { r0 with section_props := adel r0.section_props key }
      .ok { st with sections := aset st.sections u r2 }
    else .error (.keyError "The section has no property with the name")

/-- `key in self` via `collections.MutableMapping.__contains__`, which
calls `__getitem__` and catches `KeyError`. -/
def Section_contains (st : Store) (u key : String) : Bool :=
  match Section_getitem st u key with
  | .ok _ => true
  | .error _ => false

/-- What `Section.items()` yields per property during `_copy`: the
`Value` object or the child reference list, value properties first
(`__iter__` chains `value_properties` then `section_properties`). -/
inductive PropThing where
  | val (v : Value)
  | refs (l : List SecRef)
  deriving DecidableEq, Repr

def Section_items (r0 : SecRecord) : List (String × PropThing) :=
  r0.value_props.map (fun p => (p.1, PropThing.val p.2))
    ++ r0.section_props.map (fun p => (p.1, PropThing.refs p.2))

/-- `Section._copy(back_end, parent_uuid, parent_prop, copy_subsections)`
for the view `(src, u)` into the target store `tgt`.  The recursion is
bounded by fuel (source stores may contain reference cycles); every
payload step is exactly the Python statement it mirrors. -/
def Section_copy : Nat → Store → String → Bool → Store → Option String → Option String →
    Except PyErr Store
  | 0, _, _, _, _, _, _ => .error .fuel
  | fuel + 1, src, u, copySub, tgt, parentUuid, parentProp =>
    let created : Except PyErr Store :=
      match parentUuid with
      | Option.none =>
        match alookup src.sections u with
        | Option.none => .error (.keyError "Section not found")
        | some r0 => tgt.create_root r0.stype u r0.label r0.reference
      | some pu =>
        match parentProp with
        | Option.none =>
          .error (.valueError "A property name is needed in order to append a sub section")
        | some pp =>
          match alookup src.sections u with
          | Option.none => .error (.keyError "Section not found")
          | some r0 => tgt.addSec r0.stype u r0.label r0.reference pu pp
    match created with
    | .error e => .error e
    | .ok tgt1 =>
      match alookup src.sections u with
      | Option.none => .error (.keyError "Section not found")
      | some r0 =>
        (Section_items r0).foldlM
          (fun acc pt =>
            match pt.2 with
            | .refs refs =>
              if copySub then
                refs.foldlM
                  (fun t2 rf => Section_copy fuel src rf.uuid copySub t2 (some u) (some pt.1))
                  acc
              else .ok acc
            | .val v => Store.setValueProp acc u pt.1 v)
          tgt1

/-! ### The section builder (`odml2/builder.py`) -/

mutual
/-- A section builder `SB(type, uuid, label, reference, **properties)`;
the uuid argument has already been defaulted to a fresh `uuid4` string
at construction time. -/
inductive SB where
  | mk (stype uuid : String) (label reference : Option String)
      (properties : List (String × SBProp))

/-- A builder property: nested builder, existing section, list of
children, or a plain value-like object. -/
inductive SBProp where
  | sb (b : SB)
  | sec (s : SectionView)
  | list (l : List SBElem)
  | raw (o : PyObj)

/-- One element of a list-valued builder property. -/
inductive SBElem where
  | sb (b : SB)
  | sec (s : SectionView)
  | raw (o : PyObj)
end

def SB.stype : SB → String | .mk t _ _ _ _ => t
def SB.uuid : SB → String | .mk _ u _ _ _ => u
def SB.label : SB → Option String | .mk _ _ l _ _ => l
def SB.reference : SB → Option String | .mk _ _ _ r _ => r
def SB.properties : SB → List (String × SBProp) | .mk _ _ _ _ ps => ps

/-- `SB.build(back_end, parent_uuid, parent_prop)`.  Note the `else`
branch for list elements: the Python code constructs a `ValueError` but
never raises it, so such elements are silently skipped. -/
def SB_build : Nat → SB → Store → Option String → Option String → Except PyErr Store
  | 0, _, _, _, _ => .error .fuel
  | fuel + 1, sb, be, parentUuid, parentProp =>
    let created : Except PyErr Store :=
      match parentUuid with
      | Option.none => be.create_root sb.stype sb.uuid sb.label sb.reference
      | some pu =>
        match parentProp with
        | Option.none =>
          .error (.valueError "A property name is needed in order to append a sub section")
        | some pp => be.addSec sb.stype sb.uuid sb.label sb.reference pu pp
    match created with
    | .error e => .error e
    | .ok be1 =>
      sb.properties.foldlM
        (fun acc pp =>
          match pp.2 with
          | .list l =>
            l.foldlM
              (fun t2 el =>
                match el with
                | .sb b => SB_build fuel b t2 (some sb.uuid) (some pp.1)
                | .sec sv => Section_copy fuel sv.back_end sv.uuid true t2 (some sb.uuid) (some pp.1)
                | .raw _ => .ok t2)
              acc
          | .sb b => SB_build fuel b acc (some sb.uuid) (some pp.1)
          | .sec sv => Section_copy fuel sv.back_end sv.uuid true acc (some sb.uuid) (some pp.1)
          | .raw o =>
            match Value.from_obj o with
            | .error e => .error e
            | .ok v => Store.setValueProp acc sb.uuid pp.1 v)
        be1

/-! ### `Section.__setitem__` -/

/-- The possible right-hand sides of `section[key] = element`. -/
inductive Elem where
  | list (l : List SBElem)
  | sb (b : SB)
  | sec (s : SectionView)
  | raw (o : PyObj)

/-- Modelled from the spec: `assert_prefixed_name` from `odml2.checks`
(not among the sources).  Names are non-empty identifiers, optionally
with a namespace `px:name`; malformed names raise. -/
def isNameChar (c : Char) : Bool := c.isAlphanum || c = '_' || c = '-'

def validNameChars (l : List Char) : Bool := !l.isEmpty && l.all isNameChar

def validName (s : String) : Bool := validNameChars s.toList

/-- Split a character list at the colons. -/
def splitColon : List Char → List (List Char)
  | [] => [[]]
  | c :: r =>
    if c = ':' then [] :: splitColon r
    else
      match splitColon r with
      | h :: t => (c :: h) :: t
      | [] => [[c]]

def validPrefixedName (s : String) : Bool :=
  match splitColon s.toList with
  | [n] => validNameChars n
  | [px, n] => validNameChars px && validNameChars n
  | _ => false

/-- `Section.__setitem__`: checks the name, deletes any existing
property of that name, then grafts builders/sections (elements of a list
that are neither are skipped — the `ValueError` in the source is built
but never raised), or converts a scalar through `Value.from_obj` and
stores it as a value property. -/
def Section_setitem (fuel : Nat) (st : Store) (u key : String) (e : Elem) :
    Except PyErr Store :=
  if !validPrefixedName key then .error (.valueError "Invalid name") else
  let st1res : Except PyErr Store :=
    if Section_contains st u key then Section_delitem st u key else .ok st
  match st1res with
  | .error er => .error er
  | .ok st1 =>
    match e with
    | .list l =>
      l.foldlM
        (fun t2 el =>
          match el with
          | .sb b => SB_build fuel b t2 (some u) (some key)
          | .sec sv => Section_copy fuel sv.back_end sv.uuid true t2 (some u) (some key)
          | .raw _ => .ok t2)
        st1
    | .sb b => SB_build fuel b st1 (some u) (some key)
    | .sec sv => Section_copy fuel sv.back_end sv.uuid true st1 (some u) (some key)
    | .raw o =>
      match Value.from_obj o with
      | .error er => .error er
      | .ok v =>
        match alookup st1.sections u with
        | Option.none => .error (.keyError "Section not found")
        | some r0 =>
          let r2 := { r0 with value_props := aset r0.value_props key v }
          .ok { st1 with sections := aset st1.sections u r2 }

/-! ### `Section.__eq__` -/

/-- The right operand of a section comparison: another `Section` or any
other Python object. -/
inductive PyOperand where
  | sec (s : SectionView)
  | obj (o : PyObj)
  deriving DecidableEq, Repr

/-- `Section.__eq__`: uuid comparison for sections, `False` otherwise. -/
def Section_eq (a : SectionView) : PyOperand → Bool
  | .sec b => a.uuid == b.uuid
  | .obj _ => false

/-- `Section.__ne__` is the negation of `__eq__`. -/
def Section_ne (a : SectionView) (o : PyOperand) : Bool := !(Section_eq a o)

/-! ### Association-list lemmas -/

theorem alookup_aset {α : Type} (l : List (String × α)) (k : String) (v : α) :
    alookup (aset l k v) k = some v := by
  induction l with
  | nil => simp [aset, alookup]
  | cons h t ih =>
    by_cases hk : h.1 = k
    · simp [aset, hk, alookup]
    · simpa [aset, hk, alookup] using ih

theorem alookup_aset_of_ne {α : Type} (l : List (String × α)) (k : String) (v : α)
    (k2 : String) (h : k ≠ k2) : alookup (aset l k v) k2 = alookup l k2 := by
  induction l with
  | nil => simp [aset, alookup, h]
  | cons hd t ih =>
    by_cases hk : hd.1 = k
    · simp [aset, hk, alookup, h, hk ▸ h]
    · simp only [aset, hk, if_neg hk, alookup]
      by_cases hk2 : hd.1 = k2
      · simp [hk2]
      · simpa [hk2] using ih

theorem alookup_adel {α : Type} (l : List (String × α)) (k : String) :
    alookup (adel l k) k = none := by
  induction l with
  | nil => simp [adel, alookup]
  | cons hd t ih =>
    by_cases hk : hd.1 = k
    · simpa [adel, hk] using ih
    · simpa [adel, hk, alookup] using ih

theorem alookup_adel_of_ne {α : Type} (l : List (String × α)) (k k2 : String)
    (h : k ≠ k2) : alookup (adel l k) k2 = alookup l k2 := by
  induction l with
  | nil => simp [adel]
  | cons hd t ih =>
    by_cases hk : hd.1 = k
    · have h2 : ¬ hd.1 = k2 := by rw [hk]; exact h
      simp [adel, hk, alookup, h2, h, ih]
    · by_cases hk2 : hd.1 = k2
      · simp [adel, hk, alookup, hk2, Ne.symm h]
      · simp [adel, hk, alookup, hk2, ih]

theorem alookup_aset_isSome {α : Type} (l : List (String × α)) (k : String) (v : α)
    (x : String) (h : (alookup l x).isSome = true) :
    (alookup (aset l k v) x).isSome = true := by
  by_cases hx : k = x
  · rw [hx, alookup_aset]; rfl
  · rw [alookup_aset_of_ne l k v x hx]; exact h

/-! ### Claim theorems: value grammar evaluations -/

/-- The test input of `ValueTest.test_value_from`:
`"10μΩ±0.2e-2"` (μ is U+03BC, Ω is U+03A9, ± is U+00B1). -/
def c2Input : String :=
  ⟨['1', '0', Char.ofNat 956, Char.ofNat 937, Char.ofNat 177, '0', '.', '2', 'e', '-', '2']⟩

/-- C2: `value_from("10μΩ±0.2e-2")` is claimed (and asserted by the
repository's own test `ValueTest.test_value_from`) to produce payload
`10`, unit `"μΩ"`, uncertainty `0.002`.  The code disagrees: `VALUE_EXPR`
places the uncertainty group before the unit group, so this unit-first
string does not match at all and `from_obj` stores it as a plain string
payload with no unit and no uncertainty. -/
theorem c2_value_from_micro_ohm :
    VALUE_EXPR_match c2Input.toList = none ∧
    Value.from_obj (.pay (.str c2Input)) = .ok ⟨.str c2Input, none, none⟩ := by
  decide

/-- C8: `value_from("10.2kmol")` yields the float `10.2` (the decimal
`102/10^1`, whose Python printing is `"10.2"`), unit `"kmol"` and no
uncertainty. -/
theorem c8_value_from_kmol :
    Value.from_obj (.pay (.str "10.2kmol")) =
      .ok ⟨.float ⟨102, 1⟩, some "kmol", none⟩ ∧
    decStr ⟨102, 1⟩ = "10.2" := by
  decide

/-! ### Claim theorems: structural errors (C9) -/

/-- C9: both `SB.build` and `Section._copy`, called with a parent uuid
but no parent property name, raise the `ValueError` before touching any
store (the result is the error alone; no store with a new record is
produced, so the target is unchanged). -/
theorem c9_parent_prop_required :
    (∀ (fuel : Nat) (src : Store) (u : String) (copySub : Bool) (tgt : Store) (pu : String),
      Section_copy (fuel + 1) src u copySub tgt (some pu) Option.none =
        .error (.valueError "A property name is needed in order to append a sub section")) ∧
    (∀ (fuel : Nat) (sb : SB) (be : Store) (pu : String),
      SB_build (fuel + 1) sb be (some pu) Option.none =
        .error (.valueError "A property name is needed in order to append a sub section")) := by
  exact ⟨fun fuel src u copySub tgt pu => rfl, fun fuel sb be pu => rfl⟩

/-! ### Claim theorems: section equality (C10) -/

/-- C10: `Section.__eq__` compares only the uuid strings — the referenced
back-end store and the `is_link` flag play no role — a `Section` is never
equal to a non-`Section` object, and the comparison is reflexive and
symmetric. -/
theorem c10_section_eq_by_uuid :
    (∀ a b : SectionView, Section_eq a (.sec b) = true ↔ a.uuid = b.uuid) ∧
    (∀ (a : SectionView) (o : PyObj), Section_eq a (.obj o) = false) ∧
    (∀ a : SectionView, Section_eq a (.sec a) = true) ∧
    (∀ a b : SectionView, Section_eq a (.sec b) = Section_eq b (.sec a)) := by
  refine ⟨fun a b => ?_, fun a o => rfl, fun a => ?_, fun a b => ?_⟩
  · simp [Section_eq]
  · simp [Section_eq]
  · by_cases h : a.uuid = b.uuid
    · simp [Section_eq, h]
    · simp [Section_eq, h, Ne.symm h]

/-- Instantiation of C10: two views of the same uuid over different
stores and different `is_link` flags compare equal. -/
theorem c10_section_eq_by_uuid_witness :
    Section_eq ⟨"u1", ⟨[], none⟩, false⟩ (.sec ⟨"u1", ⟨[], some "u1"⟩, true⟩) = true :=
  (c10_section_eq_by_uuid.1 ⟨"u1", ⟨[], none⟩, false⟩ ⟨"u1", ⟨[], some "u1"⟩, true⟩).mpr rfl

/-! ### Claim theorems: `Section.get` versus `__getitem__` (C4) -/

/-- A store with one value property and one singleton section property,
used to compare `Section.get` with the behaviour the claim ascribes. -/
def c4Store : Store :=
  ⟨[("u1", ⟨"t", none, none, [("p", ⟨.int 5, none, none⟩)], [("q", [⟨"c1", false⟩])]⟩),
    ("c1", ⟨"s", none, none, [], []⟩)], some "u1"⟩

/-- C4 counterexample: the claim says `get` itself returns the Value's
payload (resp. a single `Section` for a singleton list), but `get`
returns the `Value` object (resp. the full one-element list); the
payload/singleton unwrapping happens only in `__getitem__`. -/
theorem c4_get_counterexample :
    Section_get c4Store "u1" "p" = .ok (.val ⟨.int 5, none, none⟩) ∧
    Section_get_claimed c4Store "u1" "p" = .ok (.payload (.int 5)) ∧
    Section_get c4Store "u1" "p" ≠ Section_get_claimed c4Store "u1" "p" ∧
    Section_get c4Store "u1" "q" = .ok (.secList [⟨"c1", c4Store, false⟩]) ∧
    Section_get_claimed c4Store "u1" "q" = .ok (.secOne ⟨"c1", c4Store, false⟩) ∧
    Section_get c4Store "u1" "q" ≠ Section_get_claimed c4Store "u1" "q" := by
  refine ⟨by decide, by decide, by decide, ?_, ?_, by decide⟩ <;> rfl

/-- C4 amended: `get` returns the `Value` object for a value property,
the full list of `Section` views for a section property (even a
singleton), and `None` when absent; `__getitem__` performs the
unwrapping the claim describes — Value payload, single `Section` for a
length-1 list, the list for other lengths — and raises `KeyError` on an
absent name. -/
theorem c4_get_getitem_cases :
    ∀ (st : Store) (u key : String) (r0 : SecRecord),
      alookup st.sections u = some r0 →
      ((∀ v, alookup r0.value_props key = some v →
          Section_get st u key = .ok (.val v) ∧
          Section_getitem st u key = .ok (.payload v.value)) ∧
       (∀ refs, alookup r0.value_props key = Option.none →
          alookup r0.section_props key = some refs →
          Section_get st u key =
            .ok (.secList (refs.map fun rf => ⟨rf.uuid, st, rf.is_link⟩)) ∧
          (∀ rf, refs = [rf] →
            Section_getitem st u key = .ok (.secOne ⟨rf.uuid, st, rf.is_link⟩)) ∧
          (refs.length ≠ 1 →
            Section_getitem st u key =
              .ok (.secList (refs.map fun rf => ⟨rf.uuid, st, rf.is_link⟩)))) ∧
       (alookup r0.value_props key = Option.none →
        alookup r0.section_props key = Option.none →
          Section_get st u key = .ok PyAccess.none ∧
          Section_getitem st u key = .error (.keyError "Key not in section"))) := by
  intro st u key r0 hu
  refine ⟨fun v hv => ?_, fun refs hv hs => ?_, fun hv hs => ?_⟩
  · constructor
    · simp [Section_get, hu, hv]
    · simp [Section_getitem, Section_get, hu, hv]
  · refine ⟨by simp [Section_get, hu, hv, hs], fun rf hrf => ?_, fun hlen => ?_⟩
    · subst hrf
      simp [Section_getitem, Section_get, hu, hv, hs]
    · match refs, hlen with
      | [], _ => simp [Section_getitem, Section_get, hu, hv, hs]
      | a :: b :: t, _ => simp [Section_getitem, Section_get, hu, hv, hs]
      | [a], hlen => exact absurd rfl hlen
  · constructor
    · simp [Section_get, hu, hv, hs]
    · simp [Section_getitem, Section_get, hu, hv, hs]

/-- Instantiation of C4 amended at a concrete store. -/
theorem c4_get_getitem_cases_witness :
    Section_getitem c4Store "u1" "p" = .ok (.payload (.int 5)) ∧
    Section_getitem c4Store "u1" "q" = .ok (.secOne ⟨"c1", c4Store, false⟩) :=
  ⟨((c4_get_getitem_cases c4Store "u1" "p" _ rfl).1 _ rfl).2,
   (((c4_get_getitem_cases c4Store "u1" "q" _ rfl).2.1 _ rfl rfl).2.1 _ rfl)⟩

/-! ### Claim theorems: the unit/uncertainty numeric invariant (C7) -/

/-- C7 counterexample: a boolean payload — not numeric in the sense of
the specification's data model, which lists `Bool` separately from
`Number` — still constructs successfully together with a unit, because
`isinstance(True, numbers.Number)` holds in Python. -/
theorem c7_bool_with_unit_constructs :
    Value.init (.bool true) (some "mV") none = .ok ⟨.bool true, some "mV", none⟩ ∧
    Payload.isSpecNumeric (.bool true) = false := by
  decide

/-- C7 amended: every successfully constructed `Value` with a unit or an
uncertainty has a payload that is numeric in Python's sense (a number or
a bool); payloads that are not (strings and temporal values) fail with
the conversion `ValueError`; and the invariant is maintained by `copy`
and by `from_obj` (which build through `__init__` — only a pre-existing
`Value` object passes through `from_obj` unchecked). -/
theorem c7_numeric_invariant :
    (∀ (p : Payload) (u : Option String) (c : Option Dec) (v : Value),
       Value.init p u c = .ok v →
       (v.unit.isSome || v.uncertainty.isSome) = true → v.value.isNumber = true) ∧
    (∀ (p : Payload) (u : Option String) (c : Option Dec),
       p.isNumber = false → (u.isSome || c.isSome) = true →
       Value.init p u c =
         .error (.valueError "Uncertainty and unit must be None if value is not a number")) ∧
    (∀ (v : Value) (np : Option Payload) (nu : Option String) (nc : Option Dec) (v2 : Value),
       Value.copy v np nu nc = .ok v2 →
       (v2.unit.isSome || v2.uncertainty.isSome) = true → v2.value.isNumber = true) ∧
    (∀ (o : PyObj) (v : Value),
       Value.from_obj o = .ok v → (∀ w, o ≠ .val w) →
       (v.unit.isSome || v.uncertainty.isSome) = true → v.value.isNumber = true) := by
  have hinit : ∀ (p : Payload) (u : Option String) (c : Option Dec) (v : Value),
      Value.init p u c = .ok v →
      (v.unit.isSome || v.uncertainty.isSome) = true → v.value.isNumber = true := by
    intro p u c v hok hset
    unfold Value.init at hok
    by_cases hcond : (u.isSome || c.isSome) && !p.isNumber
    · simp [hcond] at hok
    · simp [hcond] at hok
      subst hok
      simp only [Bool.and_eq_true, Bool.not_eq_true'] at hcond
      rcases Bool.or_eq_true_iff.mp hset with hu | hc
      · rcases Bool.eq_false_or_eq_true p.isNumber with hn | hn
        · exact hn
        · exact absurd ⟨Bool.or_eq_true_iff.mpr (Or.inl hu), hn⟩ hcond
      · rcases Bool.eq_false_or_eq_true p.isNumber with hn | hn
        · exact hn
        · exact absurd ⟨Bool.or_eq_true_iff.mpr (Or.inr hc), hn⟩ hcond
  refine ⟨hinit, ?_, ?_, ?_⟩
  · intro p u c hnum hset
    unfold Value.init
    simp [hnum, hset]
  · intro v np nu nc v2 hok hset
    exact hinit _ _ _ _ hok hset
  · intro o v hok hval hset
    match o, hok with
    | .pay (.str s), hok =>
      rw [Value.from_obj] at hok
      cases hm : VALUE_EXPR_match s.toList with
      | none => rw [hm] at hok; exact hinit _ _ _ _ hok hset
      | some caps => rw [hm] at hok; exact hinit _ _ _ _ hok hset
    | .pay (.int n), hok => exact hinit _ _ _ _ hok hset
    | .pay (.float d), hok => exact hinit _ _ _ _ hok hset
    | .pay (.bool b), hok => exact hinit _ _ _ _ hok hset
    | .pay (.date y mo dy), hok => exact hinit _ _ _ _ hok hset
    | .pay (.time h mi s), hok => exact hinit _ _ _ _ hok hset
    | .pay (.datetime y mo dy h mi s), hok => exact hinit _ _ _ _ hok hset
    | .val w, hok => exact absurd rfl (hval w)

/-- Instantiation of C7 amended: a numeric value with unit and
uncertainty, and a failing string-payload construction. -/
theorem c7_numeric_invariant_witness :
    (Value.mk (.int 100) (some "mV") (some ⟨1, 3⟩)).value.isNumber = true ∧
    Value.init (.str "a") (some "mV") none =
      .error (.valueError "Uncertainty and unit must be None if value is not a number") :=
  ⟨c7_numeric_invariant.1 (.int 100) (some "mV") (some ⟨1, 3⟩) _ rfl rfl,
   c7_numeric_invariant.2.1 (.str "a") (some "mV") none rfl rfl⟩

/-! ### Claim theorems: scalar assignment replaces (C6) -/

theorem contains_of_get_ok (st : Store) (u key : String) (a : PyAccess)
    (hget : Section_get st u key = .ok a) (hne : a ≠ PyAccess.none) :
    Section_contains st u key = true := by
  unfold Section_contains Section_getitem
  rw [hget]
  match a, hne with
  | .val v, _ => rfl
  | .payload p, _ => rfl
  | .secOne s, _ => rfl
  | .secList l, _ =>
    match l with
    | [] => rfl
    | [s] => rfl
    | a :: b :: t => rfl
  | .none, hne => exact absurd rfl hne

theorem contains_false_of_get_none (st : Store) (u key : String)
    (hget : Section_get st u key = .ok PyAccess.none) :
    Section_contains st u key = false := by
  unfold Section_contains Section_getitem
  rw [hget]

/-- C6: assigning a scalar `section[key] = x` (with a valid name, an
existing section, and a convertible scalar) succeeds, and afterwards
`key` is a value property holding exactly `Value.from_obj x` while no
section-list remains under `key`, whatever kind of property previously
occupied the name.  The disjunction hypothesis is the store invariant
that a name is never simultaneously a value and a section property. -/
theorem c6_scalar_assignment_replaces :
    ∀ (fuel : Nat) (st : Store) (u key : String) (r0 : SecRecord) (o : PyObj) (v : Value),
      validPrefixedName key = true →
      alookup st.sections u = some r0 →
      (alookup r0.value_props key = Option.none ∨
        alookup r0.section_props key = Option.none) →
      Value.from_obj o = .ok v →
      ∃ st2, Section_setitem fuel st u key (.raw o) = .ok st2 ∧
        ∃ r2, alookup st2.sections u = some r2 ∧
          alookup r2.value_props key = some v ∧
          alookup r2.section_props key = Option.none := by
  intro fuel st u key r0 o v hname hu hexcl hconv
  unfold Section_setitem
  cases hvk : alookup r0.value_props key with
  | some w =>
    have hget : Section_get st u key = .ok (.val w) := by simp [Section_get, hu, hvk]
    have hcont := contains_of_get_ok st u key _ hget (by intro h; cases h)
    have hsk : alookup r0.section_props key = Option.none := by
      rcases hexcl with h | h
      · rw [hvk] at h; cases h
      · exact h
    simp only [hname, Bool.not_true, Bool.false_eq_true, if_false, hcont, if_true,
      Section_delitem, hu, hvk, Option.isSome_some, hconv, alookup_aset]
    exact ⟨_, rfl, _, alookup_aset _ _ _, alookup_aset _ _ _, hsk⟩
  | none =>
    cases hsk : alookup r0.section_props key with
    | some refs =>
      have hget : Section_get st u key =
          .ok (.secList (refs.map fun rf => ⟨rf.uuid, st, rf.is_link⟩)) := by
        simp [Section_get, hu, hvk, hsk]
      have hcont := contains_of_get_ok st u key _ hget (by intro h; cases h)
      simp only [hname, Bool.not_true, Bool.false_eq_true, if_false, hcont, if_true,
        Section_delitem, hu, hvk, hsk, Option.isSome_some, Option.isSome_none, hconv,
        alookup_aset]
      exact ⟨_, rfl, _, alookup_aset _ _ _, alookup_aset _ _ _, alookup_adel _ _⟩
    | none =>
      have hget : Section_get st u key = .ok PyAccess.none := by
        simp [Section_get, hu, hvk, hsk]
      have hcont := contains_false_of_get_none st u key hget
      simp only [hname, Bool.not_true, Bool.false_eq_true, if_false, hcont, hconv, hu]
      exact ⟨_, rfl, _, alookup_aset _ _ _, alookup_aset _ _ _, hsk⟩

/-- A store whose section `u1` holds a section-list under the name `k`. -/
def c6Store : Store :=
  ⟨[("u1", ⟨"t", none, none, [], [("k", [⟨"c1", false⟩])]⟩),
    ("c1", ⟨"s", none, none, [], []⟩)], some "u1"⟩

/-- Instantiation of C6: overwriting the former section-list property
with the scalar `3`. -/
theorem c6_scalar_assignment_replaces_witness :
    ∃ st2, Section_setitem 3 c6Store "u1" "k" (.raw (.pay (.int 3))) = .ok st2 ∧
      ∃ r2, alookup st2.sections "u1" = some r2 ∧
        alookup r2.value_props "k" = some ⟨.int 3, none, none⟩ ∧
        alookup r2.section_props "k" = Option.none :=
  c6_scalar_assignment_replaces 3 c6Store "u1" "k" _ (.pay (.int 3)) ⟨.int 3, none, none⟩
    (by decide) rfl (Or.inl rfl) rfl

/-! ### Claim theorems: raw list elements are silently skipped (C5) -/

/-- List elements that are builders or sections (everything else hits
the never-raised `ValueError`). -/
def SBElem.nonRaw : SBElem → Bool
  | .raw _ => false
  | _ => true

theorem foldlM_filter_raw (f : Store → SBElem → Except PyErr Store)
    (hraw : ∀ t o, f t (.raw o) = .ok t) :
    ∀ (l : List SBElem) (t : Store),
      l.foldlM f t = (l.filter SBElem.nonRaw).foldlM f t := by
  intro l
  induction l with
  | nil => intro t; rfl
  | cons a r ih =>
    intro t
    cases a with
    | raw o =>
      rw [List.foldlM_cons, hraw]
      have : SBElem.nonRaw (.raw o) = false := rfl
      rw [List.filter_cons, this]
      simp only [Bool.false_eq_true, if_false]
      simpa using ih t
    | sb b =>
      have : SBElem.nonRaw (.sb b) = true := rfl
      rw [List.foldlM_cons, List.filter_cons, this]
      simp only [if_true, List.foldlM_cons]
      cases f t (.sb b) with
      | error e => rfl
      | ok t2 => simpa using ih t2
    | sec sv =>
      have : SBElem.nonRaw (.sec sv) = true := rfl
      rw [List.foldlM_cons, List.filter_cons, this]
      simp only [if_true, List.foldlM_cons]
      cases f t (.sec sv) with
      | error e => rfl
      | ok t2 => simpa using ih t2

theorem foldlM_map_general {α β : Type} (g : α → β)
    (f : Store → β → Except PyErr Store) :
    ∀ (l : List α) (b : Store),
      (l.map g).foldlM f b = l.foldlM (fun b2 x => f b2 (g x)) b := by
  intro l
  induction l with
  | nil => intro b; rfl
  | cons a r ih =>
    intro b
    rw [List.map_cons, List.foldlM_cons, List.foldlM_cons]
    cases f b (g a) with
    | error e => rfl
    | ok b2 => simpa using ih b2

theorem foldlM_congr_fn2 {α : Type} (f1 f2 : Store → α → Except PyErr Store)
    (h : ∀ b x, f1 b x = f2 b x) :
    ∀ (l : List α) (b : Store), l.foldlM f1 b = l.foldlM f2 b := by
  have hf : f1 = f2 := funext fun b => funext fun x => h b x
  intro l b
  rw [hf]

/-- Filtering the raw elements out of every top-level list property of a
builder. -/
def SB.filterLists : SB → SB
  | .mk t u lbl ref ps =>
    .mk t u lbl ref
      (ps.map fun p =>
        (p.1, match p.2 with
              | .list l => SBProp.list (l.filter SBElem.nonRaw)
              | x => x))

/-- C5: list elements that are neither builders nor sections raise
nothing and store nothing — in `Section.__setitem__` and in `SB.build`
the run is indistinguishable from the run on the list with those
elements removed (the `ValueError` in both sources is constructed but
never raised). -/
theorem c5_raw_list_elements_skipped :
    (∀ (fuel : Nat) (st : Store) (u key : String) (l : List SBElem),
       Section_setitem fuel st u key (.list l) =
       Section_setitem fuel st u key (.list (l.filter SBElem.nonRaw))) ∧
    (∀ (fuel : Nat) (sb : SB) (be : Store) (pu pp : Option String),
       SB_build fuel sb be pu pp = SB_build fuel sb.filterLists be pu pp) := by
  constructor
  · intro fuel st u key l
    unfold Section_setitem
    by_cases hn : validPrefixedName key
    · simp only [hn, Bool.not_true, Bool.false_eq_true, if_false]
      cases (if Section_contains st u key then Section_delitem st u key else .ok st) with
      | error e => rfl
      | ok st1 =>
        exact foldlM_filter_raw _ (fun t o => rfl) l st1
    · simp [hn]
  · intro fuel sb be pu pp
    cases fuel with
    | zero => rfl
    | succ f =>
      cases sb with
      | mk t u lbl ref ps =>
        unfold SB_build
        simp only [SB.filterLists, SB.stype, SB.uuid, SB.label, SB.reference, SB.properties]
        cases hc :
            (match pu with
             | Option.none => be.create_root t u lbl ref
             | some pu2 =>
               match pp with
               | Option.none =>
                 Except.error (.valueError
                   "A property name is needed in order to append a sub section")
               | some pp2 => be.addSec t u lbl ref pu2 pp2) with
        | error e => rfl
        | ok be1 =>
          dsimp only
          rw [foldlM_map_general]
          refine foldlM_congr_fn2 _ _ (fun b p => ?_) ps be1
          rcases p with ⟨pk, pv⟩
          cases pv with
          | list l2 =>
            dsimp only
            exact foldlM_filter_raw _ (fun t2 o => rfl) l2 b
          | sb b3 => rfl
          | sec sv => rfl
          | raw o => rfl

/-! ### Claim theorems: copied sections keep their id (C1) -/

theorem except_bind_ok {ε α β : Type} (a : α) (f : α → Except ε β) :
    (Except.ok a >>= f) = f a := rfl

theorem create_root_ok_facts (st : Store) (t u : String) (lbl ref : Option String)
    (st1 : Store) (h : st.create_root t u lbl ref = .ok st1) :
    Store.hasSec st u = false ∧ Store.hasSec st1 u = true ∧
      (∀ x, Store.hasSec st x = true → Store.hasSec st1 x = true) := by
  unfold Store.create_root at h
  by_cases hr : st.root.isSome
  · rw [if_pos hr] at h; cases h
  · rw [if_neg hr] at h
    by_cases hu : st.hasSec u
    · rw [if_pos hu] at h; cases h
    · rw [if_neg hu] at h
      cases h
      refine ⟨by simpa using hu, ?_, ?_⟩
      · show (alookup (aset st.sections u _) u).isSome = true
        rw [alookup_aset]; rfl
      · intro x hx
        exact alookup_aset_isSome _ _ _ _ hx

theorem addSec_ok_facts (st : Store) (t u : String) (lbl ref : Option String)
    (parent prop : String) (st1 : Store)
    (h : st.addSec t u lbl ref parent prop = .ok st1) :
    Store.hasSec st u = false ∧ Store.hasSec st1 u = true ∧
      (∀ x, Store.hasSec st x = true → Store.hasSec st1 x = true) := by
  unfold Store.addSec at h
  by_cases hu : st.hasSec u
  · rw [if_pos hu] at h; cases h
  · rw [if_neg hu] at h
    cases hp : alookup st.sections parent with
    | none => rw [hp] at h; cases h
    | some pr =>
      rw [hp] at h
      cases h
      refine ⟨by simpa using hu, ?_, ?_⟩
      · show (alookup (aset (aset st.sections parent _) u _) u).isSome = true
        rw [alookup_aset]; rfl
      · intro x hx
        exact alookup_aset_isSome _ _ _ _ (alookup_aset_isSome _ _ _ _ hx)

theorem setValueProp_preserves (st : Store) (u p : String) (v : Value) (st1 : Store)
    (h : st.setValueProp u p v = .ok st1) :
    ∀ x, Store.hasSec st x = true → Store.hasSec st1 x = true := by
  unfold Store.setValueProp at h
  cases hu : alookup st.sections u with
  | none => rw [hu] at h; cases h
  | some r0 =>
    rw [hu] at h
    cases h
    intro x hx
    exact alookup_aset_isSome _ _ _ _ hx

theorem foldlM_preserves_hasSec {α : Type} (f : Store → α → Except PyErr Store)
    (hstep : ∀ a t t2, f t a = .ok t2 →
      ∀ x, Store.hasSec t x = true → Store.hasSec t2 x = true) :
    ∀ (l : List α) (t t2 : Store), l.foldlM f t = .ok t2 →
      ∀ x, Store.hasSec t x = true → Store.hasSec t2 x = true := by
  intro l
  induction l with
  | nil =>
    intro t t2 h x hx
    cases h
    exact hx
  | cons a r ih =>
    intro t t2 h x hx
    rw [List.foldlM_cons] at h
    cases hf : f t a with
    | error e => rw [hf] at h; cases h
    | ok t1 =>
      rw [hf, except_bind_ok] at h
      exact ih t1 t2 h x (hstep a t t1 hf x hx)

theorem copy_preserves_hasSec :
    ∀ (fuel : Nat) (src : Store) (u : String) (cs : Bool) (tgt : Store)
      (pu pp : Option String) (st2 : Store),
      Section_copy fuel src u cs tgt pu pp = .ok st2 →
      ∀ x, Store.hasSec tgt x = true → Store.hasSec st2 x = true := by
  intro fuel
  induction fuel with
  | zero => intro src u cs tgt pu pp st2 h; cases h
  | succ f ih =>
    intro src u cs tgt pu pp st2 h x hx
    unfold Section_copy at h
    cases hsrc : alookup src.sections u with
    | none =>
      cases pu with
      | none => simp only [hsrc] at h; cases h
      | some pu2 =>
        cases pp with
        | none => simp only [hsrc] at h; cases h
        | some pp2 => simp only [hsrc] at h; cases h
    | some r0 =>
      cases pu with
      | none =>
        simp only [hsrc] at h
        cases hcr : Store.create_root tgt r0.stype u r0.label r0.reference with
        | error e => rw [hcr] at h; cases h
        | ok tgt1 =>
          rw [hcr] at h
          have h1 := (create_root_ok_facts tgt r0.stype u r0.label r0.reference tgt1 hcr).2.2
          refine foldlM_preserves_hasSec _ ?_ _ tgt1 st2 h x (h1 x hx)
          intro a t t2 hstep0 y hy
          rcases a with ⟨ak, av⟩
          cases av with
          | refs refs =>
            dsimp only at hstep0
            by_cases hcs : cs
            · rw [if_pos hcs] at hstep0
              exact foldlM_preserves_hasSec _
                (fun rf t3 t4 hc => ih src rf.uuid cs t3 (some u) (some ak) t4 hc)
                refs t t2 hstep0 y hy
            · rw [if_neg hcs] at hstep0
              cases hstep0
              exact hy
          | val v =>
            exact setValueProp_preserves t u ak v t2 hstep0 y hy
      | some pu2 =>
        cases pp with
        | none => simp only [hsrc] at h; cases h
        | some pp2 =>
          simp only [hsrc] at h
          cases had : Store.addSec tgt r0.stype u r0.label r0.reference pu2 pp2 with
          | error e => rw [had] at h; cases h
          | ok tgt1 =>
            rw [had] at h
            have h1 := (addSec_ok_facts tgt r0.stype u r0.label r0.reference pu2 pp2 tgt1 had).2.2
            refine foldlM_preserves_hasSec _ ?_ _ tgt1 st2 h x (h1 x hx)
            intro a t t2 hstep0 y hy
            rcases a with ⟨ak, av⟩
            cases av with
            | refs refs =>
              dsimp only at hstep0
              by_cases hcs : cs
              · rw [if_pos hcs] at hstep0
                exact foldlM_preserves_hasSec _
                  (fun rf t3 t4 hc => ih src rf.uuid cs t3 (some u) (some ak) t4 hc)
                  refs t t2 hstep0 y hy
              · rw [if_neg hcs] at hstep0
                cases hstep0
                exact hy
            | val v =>
              exact setValueProp_preserves t u ak v t2 hstep0 y hy

/-- C1 amended: whenever `Section._copy` succeeds in appending a copy
under a parent — into the same store or into a different one — the
created record carries the source section's own uuid: that uuid was
absent from the target before the call and is present afterwards.  No
fresh id is ever minted (there is no randomness anywhere in `_copy`). -/
theorem c1_copy_reuses_source_id :
    ∀ (fuel : Nat) (src : Store) (u : String) (cs : Bool) (tgt : Store)
      (pu pp : String) (st2 : Store),
      Section_copy fuel src u cs tgt (some pu) (some pp) = .ok st2 →
      Store.hasSec tgt u = false ∧ Store.hasSec st2 u = true := by
  intro fuel src u cs tgt pu pp st2 h
  cases fuel with
  | zero => cases h
  | succ f =>
    unfold Section_copy at h
    cases hsrc : alookup src.sections u with
    | none => simp only [hsrc] at h; cases h
    | some r0 =>
      simp only [hsrc] at h
      cases had : Store.addSec tgt r0.stype u r0.label r0.reference pu pp with
      | error e => rw [had] at h; cases h
      | ok tgt1 =>
        rw [had] at h
        obtain ⟨hfresh, hhas, _⟩ :=
          addSec_ok_facts tgt r0.stype u r0.label r0.reference pu pp tgt1 had
        refine ⟨hfresh, ?_⟩
        refine foldlM_preserves_hasSec _ ?_ _ tgt1 st2 h u hhas
        intro a t t2 hstep0 y hy
        rcases a with ⟨ak, av⟩
        cases av with
        | refs refs =>
          dsimp only at hstep0
          by_cases hcs : cs
          · rw [if_pos hcs] at hstep0
            exact foldlM_preserves_hasSec _
              (fun rf t3 t4 hc =>
                copy_preserves_hasSec f src rf.uuid cs t3 (some u) (some ak) t4 hc)
              refs t t2 hstep0 y hy
          · rw [if_neg hcs] at hstep0
            cases hstep0
            exact hy
        | val v => exact setValueProp_preserves t u ak v t2 hstep0 y hy

/-- Source store with root section `a1` holding one value property. -/
def c1Src : Store :=
  ⟨[("a1", ⟨"t", none, none, [("p", ⟨.int 5, none, none⟩)], []⟩)], some "a1"⟩

/-- A different target store with root section `b1`. -/
def c1Tgt : Store :=
  ⟨[("b1", ⟨"r", none, none, [], []⟩)], some "b1"⟩

/-- C1 counterexample: copying `a1` from `c1Src` into the different
store `c1Tgt` creates the child record under the *source* id `a1` — the
parent's property list points at `a1`, and no other id is introduced —
whereas the claim asserts a new random id is minted instead of reusing
`a1` when the stores differ. -/
theorem c1_cross_store_copy_keeps_source_id :
    c1Src ≠ c1Tgt ∧
    ∃ st2, Section_copy 5 c1Src "a1" true c1Tgt (some "b1") (some "child") = .ok st2 ∧
      Store.hasSec c1Tgt "a1" = false ∧
      Store.hasSec st2 "a1" = true ∧
      ∃ pr, alookup st2.sections "b1" = some pr ∧
        alookup pr.section_props "child" = some [⟨"a1", false⟩] := by
  refine ⟨by decide, ?_⟩
  refine ⟨_, rfl, by decide, ?_, ?_⟩ <;> decide

/-- The store produced by the concrete cross-store copy below. -/
def c1CopyResult : Store :=
  ⟨[("b1", ⟨"r", none, none, [], [("child", [⟨"a1", false⟩])]⟩),
    ("a1", ⟨"t", none, none, [("p", ⟨.int 5, none, none⟩)], []⟩)], some "b1"⟩

/-- Instantiation of C1 amended at the concrete cross-store copy. -/
theorem c1_copy_reuses_source_id_witness :
    Store.hasSec c1Tgt "a1" = false ∧ Store.hasSec c1CopyResult "a1" = true :=
  c1_copy_reuses_source_id 5 c1Src "a1" true c1Tgt "b1" "child" c1CopyResult rfl

/-! ### Claim theorems: format/parse stability (C3) -/

theorem find?_snd_map {α β : Type} (g : α → β) (l : List (α × List Char)) :
    ((l.map fun p => (g p.1, p.2)).find? fun q => q.2.isEmpty) =
      (l.find? fun p => p.2.isEmpty).map fun p => (g p.1, p.2) := by
  induction l with
  | nil => rfl
  | cons a t ih =>
    by_cases h : a.2.isEmpty
    · simp [List.find?_cons, h]
    · simp only [List.map_cons, List.find?_cons, h]
      exact ih

theorem tailCands_nil : tailCands [] = [((none, none), [])] := rfl

